import Mathlib

/-!
# Verification of the llm-code-deployer convergence-and-delivery pipeline

Shallow embedding of the core of the `llm-code-deployer` repository:
the template selector (`chooseTemplate`), the attachment decoder
(`parseDataUri`), the variable injector (`injectVariablesIntoHtml` and the
variable-bag computation of `generateSite`), the repository convergence
engine (`putFile`, `ensureRepo`'s write plan, commit messages,
`deriveRepoName`) and the delivery notifier (`postWithBackoff`), together
with the HTTP task handler's outcome logic.

Strings are modelled as Lean `String` / `List Char`; JavaScript's
`toLowerCase` on the ASCII patterns involved coincides with `Char.toLower`.
Bytes are modelled as `Nat` values below 256.
-/

namespace LlmDeployer

/-! ## Generic string utilities (JS `indexOf`, `includes`, `toLowerCase`) -/

/-- JS `String.prototype.indexOf(pat)` on char lists: index of the first
occurrence of `pat` in `hay`, or `none`. -/
def findSub : List Char → List Char → Option Nat
  | [], pat => if pat.isEmpty then some 0 else none
  | c :: rest, pat =>
    if pat.isPrefixOf (c :: rest) then some 0
    else (findSub rest pat).map (· + 1)

/-- JS `String.prototype.includes(pat)`. -/
def hasSub (hay pat : List Char) : Bool :=
  (findSub hay pat).isSome

/-- JS `String.prototype.toLowerCase` restricted to the ASCII mapping,
which is all the source's patterns exercise. -/
def jsToLower (l : List Char) : List Char :=
  l.map Char.toLower

/-- Case-insensitive `indexOf` (the source uses `/.../i` regex tests whose
patterns are already lowercase). -/
def findSubCI (hay pat : List Char) : Option Nat :=
  findSub (jsToLower hay) pat

/-- Case-insensitive substring test (JS `/pat/i.test(hay)` for a literal
lowercase `pat`). -/
def hasSubCI (hay pat : List Char) : Bool :=
  (findSubCI hay pat).isSome

/-- JS `hay.replace(/pat/i, '')` for a literal pattern: remove the first
case-insensitive occurrence of `pat`, if any. -/
def removeFirstCI (hay pat : List Char) : List Char :=
  match findSubCI hay pat with
  | none => hay
  | some i => hay.take i ++ hay.drop (i + pat.length)

/-- JS `/^pat/i.test(hay)` for a literal lowercase pattern. -/
def ciStartsWith (hay pat : List Char) : Bool :=
  pat.isPrefixOf (jsToLower hay)

/-- JS `/^pat$/i.test(hay)` for a literal lowercase pattern. -/
def ciEquals (hay pat : List Char) : Bool :=
  jsToLower hay = pat

/-! ## Template Selector (`src/generator/index.js`, `chooseTemplate`) -/

/-- `chooseTemplate(brief = '')` from `src/generator/index.js` lines 9-17:
lowercases the brief and tests the four keyword rules in order, falling
back to `"fallback"`.  A missing brief (`undefined`) and an empty brief
both reach the default `''`. -/
def chooseTemplate (brief : Option String) : String :=
  let b := jsToLower (brief.getD "").toList
  if hasSub b "captcha".toList && hasSub b "?url=".toList then
    "captcha-solver"
  else if hasSub b "markdown".toList || hasSub b "marked".toList ||
      hasSub b "highlight.js".toList || hasSub b "highlightjs".toList then
    "markdown-to-html"
  else if (hasSub b "csv".toList && hasSub b "sales".toList) ||
      hasSub b "sum of sales".toList then
    "sum-of-sales"
  else if (hasSub b "github".toList && hasSub b "user".toList &&
      (hasSub b "created".toList || hasSub b "creation".toList)) ||
      hasSub b "created at".toList then
    "github-user-created"
  else
    "fallback"

/-- Modelled from the spec (§4.2): the catalogue as an ordered list of
`(predicate, templateId)` pairs, in catalogue order. -/
def catalogueRules : List ((List Char → Bool) × String) :=
  [ (fun b => hasSub b "captcha".toList && hasSub b "?url=".toList,
      "captcha-solver"),
    (fun b => hasSub b "markdown".toList || hasSub b "marked".toList ||
      hasSub b "highlight.js".toList || hasSub b "highlightjs".toList,
      "markdown-to-html"),
    (fun b => (hasSub b "csv".toList && hasSub b "sales".toList) ||
      hasSub b "sum of sales".toList,
      "sum-of-sales"),
    (fun b => (hasSub b "github".toList && hasSub b "user".toList &&
      (hasSub b "created".toList || hasSub b "creation".toList)) ||
      hasSub b "created at".toList,
      "github-user-created") ]

/-- Modelled from the spec (§4.2): first matching rule wins, no match
gives `fallback`. -/
def firstMatch : List ((List Char → Bool) × String) → List Char → String
  | [], _ => "fallback"
  | (p, t) :: rest, b => if p b then t else firstMatch rest b

/-! ## Repository name derivation (`src/unnamed/part_002` lines 31-39 and
`src/index.js` lines 65-68) -/

/-- Characters the slug regex `[^a-z0-9\-_]` keeps. -/
def isSlugChar (c : Char) : Bool :=
  ('a' ≤ c && c ≤ 'z') || ('0' ≤ c && c ≤ '9') || c = '-' || c = '_'

/-- JS `replace(/[^a-z0-9\-_]+/g, '-')`: each maximal run of characters
outside the slug alphabet becomes a single dash.  The boolean tracks
whether the previous character belonged to a bad run. -/
def squashBadRuns : Bool → List Char → List Char
  | _, [] => []
  | prevBad, c :: rest =>
    if isSlugChar c then c :: squashBadRuns false rest
    else if prevBad then squashBadRuns true rest
    else '-' :: squashBadRuns true rest

/-- JS `replace(/^-+|-+$/g, '')`: strip leading and trailing dash runs. -/
def stripEdgeDashes (l : List Char) : List Char :=
  ((l.dropWhile (· = '-')).reverse.dropWhile (· = '-')).reverse

/-- `slugifyTask` from `src/unnamed/part_002` lines 31-35. -/
def slugifyTask (task : String) : List Char :=
  let base := stripEdgeDashes (squashBadRuns false (jsToLower task.toList))
  let short := base.take 55
  if short.isEmpty then "task".toList else short

/-- `deriveRepoName` from `src/unnamed/part_002` lines 37-39. -/
def deriveRepoName (task : String) : List Char :=
  ("llm-".toList ++ slugifyTask task).take 60

/-- Characters the legacy regex `[^a-zA-Z0-9-_]` keeps. -/
def isLegacySafeChar (c : Char) : Bool :=
  ('a' ≤ c && c ≤ 'z') || ('A' ≤ c && c ≤ 'Z') || ('0' ≤ c && c ≤ '9') ||
    c = '-' || c = '_'

/-- `repoNameFor` from `src/index.js` lines 65-68: each offending
character is replaced individually (the regex has no `+`), no lowering,
then `slice(0,60)` and the `llm-` prefix. -/
def repoNameFor (task : String) : List Char :=
  let safe := (task.toList.map (fun c => if isLegacySafeChar c then c else '-')).take 60
  "llm-".toList ++ safe

/-! ## Commit messages and the convergence write plan (`src/unnamed/part_002`
`ensureRepo`, lines 130-159; `src/index.js` lines 70-111) -/

/-- `src/unnamed/part_002` line 141:
`round === 2 ? 'feat: round2 update' : 'feat: initial app'`. -/
def commitMessage (round : Nat) : String :=
  if round = 2 then "feat: round2 update" else "feat: initial app"

/-- `src/index.js` line 87:
`round === 1 ? "feat: initial app" : "feat: round2 update"`. -/
def commitMessageLegacy (round : Nat) : String :=
  if round = 1 then "feat: initial app" else "feat: round2 update"

/-- One `putFile` call issued by `ensureRepo`. -/
structure FileWrite where
  path : String
  content : String
  message : String
deriving DecidableEq, Repr

/-- The ordered sequence of `putFile` calls `ensureRepo` makes
(`src/unnamed/part_002` lines 143-152): workflow, license, each generated
site file in order, then README, all with the same commit message. -/
def ensureRepoWrites (workflow license readme : String)
    (siteFiles : List (String × String)) (round : Nat) : List FileWrite :=
  let m := commitMessage round
  ⟨".github/workflows/deploy-pages.yml", workflow, m⟩ ::
    ⟨"LICENSE", license, m⟩ ::
    (siteFiles.map (fun pc => ⟨pc.1, pc.2, m⟩) ++ [⟨"README.md", readme, m⟩])

/-! ## The optimistic-concurrency file write (`src/unnamed/part_002`
`getFileShaIfExists` lines 72-81 and `putFile` lines 83-95;
`src/index.js` `putFile` lines 52-63) -/

/-- Stored state of one repository path: its content and its
content-addressed revision token (blob sha). -/
structure PathState where
  content : String
  sha : String
deriving DecidableEq, Repr

/-- Revision tokens are content-addressed, as GitHub blob shas are. -/
def blobSha (content : String) : String :=
  "blob-" ++ content

/-- Outcome of the remote `createOrUpdateFileContents` call: the write is
accepted only when the supplied precondition token matches the current
state of the path (no token for a missing path, the current sha for an
existing one); otherwise the remote rejects it (409/422). -/
inductive WriteOutcome where
  | accepted (st : PathState)
  | rejected
deriving DecidableEq, Repr

/-- Remote semantics of `octokit.rest.repos.createOrUpdateFileContents`
with respect to the optimistic precondition `sha?`. -/
def createOrUpdateFileContents (cur : Option PathState) (content : String)
    (sha? : Option String) : WriteOutcome :=
  match cur with
  | none => if sha?.isNone then .accepted ⟨content, blobSha content⟩ else .rejected
  | some st =>
    if sha? = some st.sha then .accepted ⟨content, blobSha content⟩ else .rejected

/-- `getFileShaIfExists` (`src/unnamed/part_002` lines 72-81): the current
revision token of the path, or `none` when absent. -/
def getFileShaIfExists (cur : Option PathState) : Option String :=
  cur.map (·.sha)

/-- `putFile` (`src/unnamed/part_002` lines 83-95): read the current sha,
then issue a single write carrying that sha as precondition.  There is no
retry: a rejection is surfaced directly.  The remote state of the path may
change between the engine's successive remote calls, so it is modelled as
a function `env` from the engine's call index to the path state at that
moment (call 0 is the read, call 1 is the write).  The second component
counts the write attempts made. -/
def putFile (env : Nat → Option PathState) (content : String) :
    Except String PathState × Nat :=
  let sha0 := getFileShaIfExists (env 0)
  match createOrUpdateFileContents (env 1) content sha0 with
  | .accepted st => (.ok st, 1)
  | .rejected => (.error "409 Conflict", 1)

/-! ## Delivery Notifier (`src/unnamed/part_002` `postWithBackoff`,
lines 161-177, and `postWithRetry`, lines 180-183) -/

/-- What one `fetch` of the callback URL can produce: a network-level
failure with an error message, or an HTTP response with a status code and
a body text. -/
inductive FetchOutcome where
  | netError (msg : String)
  | response (status : Nat) (body : String)
deriving DecidableEq, Repr

/-- `res.ok`: status in the 2xx range. -/
def isOkStatus (s : Nat) : Bool :=
  200 ≤ s && s < 300

/-- An attempt that does not succeed: a network error, or a response whose
status is not ok. -/
def failedOutcome : FetchOutcome → Prop
  | .netError _ => True
  | .response s _ => isOkStatus s = false

instance : DecidablePred failedOutcome := fun o => by
  cases o <;> simp [failedOutcome] <;> infer_instance

/-- Observable event of the notifier loop: the `i`-th `fetch` attempt, or
an `await setTimeout` sleep of the given number of seconds. -/
inductive NotifyEvent where
  | attempt (i : Nat)
  | sleep (secs : Nat)
deriving DecidableEq, Repr

def NotifyEvent.isAttempt : NotifyEvent → Bool
  | .attempt _ => true
  | .sleep _ => false

/-- The seconds of the sleep events of a trace, in order. -/
def sleepSecs (evs : List NotifyEvent) : List Nat :=
  evs.filterMap (fun e => match e with | .sleep d => some d | .attempt _ => none)

/-- Number of fetch attempts in a trace. -/
def attemptCount (evs : List NotifyEvent) : Nat :=
  (evs.filter NotifyEvent.isAttempt).length

/-- Result shape of `postWithBackoff`: `{ ok: true }` on success, else
`{ ok: false, status: lastStatus, error: lastText || 'callback failed' }`. -/
structure PostResult where
  ok : Bool
  status : Option Nat
  error : Option String
deriving DecidableEq, Repr

/-- The loop body of `postWithBackoff` (`src/unnamed/part_002` lines
165-175), over the remaining delay list, the attempt index `i`, and the
`lastStatus` / `lastText` accumulators.  On each iteration: fetch; a
successful response returns `{ok: true}` immediately; a failed response
records its status and body text; a network error records its message;
then the loop sleeps `delays[i]` seconds — also after the final failed
attempt — before the next iteration or the final return.  The callback
target is modelled as a function from attempt index to `FetchOutcome`. -/
def runBackoff (responder : Nat → FetchOutcome) :
    List Nat → Nat → Nat → String → List NotifyEvent × PostResult
  | [], _, lastStatus, lastText =>
    ([], ⟨false, some lastStatus,
      some (if lastText = "" then "callback failed" else lastText)⟩)
  | d :: rest, i, lastStatus, _lastText =>
    match responder i with
    | .response s body =>
      if isOkStatus s then ([.attempt i], ⟨true, none, none⟩)
      else
        let r := runBackoff responder rest (i + 1) s body
        (.attempt i :: .sleep d :: r.1, r.2)
    | .netError msg =>
      let r := runBackoff responder rest (i + 1) lastStatus msg
      (.attempt i :: .sleep d :: r.1, r.2)

/-- `postWithBackoff` (`src/unnamed/part_002` lines 161-177) with
`delays = [1, 2, 4, 8, 16, 32]`, `lastStatus = 0`, `lastText = ''`.
Returns the event trace together with the result object. -/
def postWithBackoff (responder : Nat → FetchOutcome) :
    List NotifyEvent × PostResult :=
  runBackoff responder [1, 2, 4, 8, 16, 32] 0 0 ""

/-- `postWithRetry` (`src/unnamed/part_002` lines 180-183): `!!res.ok`. -/
def postWithRetry (responder : Nat → FetchOutcome) : Bool :=
  (postWithBackoff responder).2.ok

/-- The last (status, text) pair the loop accumulates when every attempt
fails: responses overwrite both, network errors overwrite only the text. -/
def lastObserved (responder : Nat → FetchOutcome) :
    List Nat → Nat → Nat → String → Nat × String
  | [], _, lastStatus, lastText => (lastStatus, lastText)
  | _ :: rest, i, lastStatus, _lastText =>
    match responder i with
    | .response s body => lastObserved responder rest (i + 1) s body
    | .netError msg => lastObserved responder rest (i + 1) lastStatus msg

/-- The trace produced when every attempt in the window fails: each
attempt followed by its sleep, including a sleep after the last attempt. -/
def failTrace : List Nat → Nat → List NotifyEvent
  | [], _ => []
  | d :: rest, i => .attempt i :: .sleep d :: failTrace rest (i + 1)

/-! ## The `/task` handler outcome (`src/unnamed/part_002` lines 195-237) -/

/-- Repository convergence outcome handed back by `ensureRepo`. -/
structure RepoInfo where
  repo : List Char
  commitSha : String
  pagesUrl : String
deriving Repr

/-- Shape of the handler's HTTP response that the claims talk about:
status code, the `ok` flag, the advisory `note`, and whether the success
payload is present. -/
structure TaskResponse where
  status : Nat
  ok : Bool
  note : Option String
  hasPayload : Bool
deriving DecidableEq, Repr

/-- The `/task` handler's outcome logic (`src/unnamed/part_002` lines
195-237): 403 on bad secret, 400 on validation errors, 500 when
`ensureRepo` throws; otherwise the callback is notified via
`postWithRetry` and the handler answers 200 `{ ok: true, payload, note }`
where `note` is set exactly when delivery failed. -/
def handleTask (secretOk : Bool) (validationErrors : List String)
    (repoResult : Except String RepoInfo)
    (responder : Nat → FetchOutcome) : TaskResponse :=
  if !secretOk then ⟨403, false, none, false⟩
  else if !validationErrors.isEmpty then ⟨400, false, none, false⟩
  else
    match repoResult with
    | .error _ => ⟨500, false, none, false⟩
    | .ok _ =>
      let delivered := postWithRetry responder
      ⟨200, true,
        if delivered then none else some "evaluation_url not reachable after retries",
        true⟩

/-! ## Variable Injector (`src/generator/index.js`,
`injectVariablesIntoHtml`, lines 35-55) -/

/-- The inline script block `<script>\n<serialized></script>` built around
the serialized variable bag
(`'window.__INJECT__ = ' + JSON.stringify(vars) + ';\n'`); the
`JSON.stringify` output is taken as an opaque character list `serialized`,
since insertion position is independent of it. -/
def inlineScriptBlock (serialized : List Char) : List Char :=
  "<script>\n".toList ++ serialized ++ "</script>".toList

/-- `injectVariablesIntoHtml` (`src/generator/index.js` lines 35-55):
insert the block before the first `<script`; else before `</head>`; else
after the `>` closing the `<body` tag; else prepend. -/
def injectVariablesIntoHtml (html serialized : List Char) : List Char :=
  let inlineScript := inlineScriptBlock serialized
  match findSub html "<script".toList with
  | some idx => html.take idx ++ inlineScript ++ '\n' :: html.drop idx
  | none =>
    match findSub html "</head>".toList with
    | some headIdx =>
      html.take headIdx ++ inlineScript ++ '\n' :: html.drop headIdx
    | none =>
      match findSub html "<body".toList with
      | some bodyIdx =>
        match findSub (html.drop bodyIdx) ">".toList with
        | some j =>
          html.take (bodyIdx + j + 1) ++
            '\n' :: (inlineScript ++ '\n' :: html.drop (bodyIdx + j + 1))
        | none => inlineScript ++ html
      | none => inlineScript ++ html

/-- Modelled from the spec (§4.3 injection rules): the insertion index the
first applicable rule selects — before the first inline-script tag, else
before the closing head marker, else just after the `>` of the opening
body tag, else position 0 (prepend). -/
def specInsertionIndex (html : List Char) : Nat :=
  match findSub html "<script".toList with
  | some idx => idx
  | none =>
    match findSub html "</head>".toList with
    | some headIdx => headIdx
    | none =>
      match findSub html "<body".toList with
      | some bodyIdx =>
        match findSub (html.drop bodyIdx) ">".toList with
        | some j => bodyIdx + j + 1
        | none => 0
      | none => 0

/-- Modelled from the spec (§4.3): the chunk actually spliced in at the
insertion index — the block plus the newline padding each rule adds. -/
def specInsertedChunk (html serialized : List Char) : List Char :=
  let block := inlineScriptBlock serialized
  match findSub html "<script".toList with
  | some _ => block ++ ['\n']
  | none =>
    match findSub html "</head>".toList with
    | some _ => block ++ ['\n']
    | none =>
      match findSub html "<body".toList with
      | some bodyIdx =>
        match findSub (html.drop bodyIdx) ">".toList with
        | some _ => '\n' :: block ++ ['\n']
        | none => block
      | none => block

/-! ## Byte-level codecs backing `Buffer` and `decodeURIComponent`

`Buffer.from(s, 'utf8')`, `buffer.toString('utf8')`,
`Buffer.from(s, 'base64')`, `buffer.toString('base64')` and
`decodeURIComponent` are Node built-ins the decoder calls; they are
modelled here at the byte level (bytes are `Nat` values below 256). -/

/-- UTF-8 encoding of one Unicode scalar value. -/
def utf8EncodeChar (n : Nat) : List Nat :=
  if n < 0x80 then [n]
  else if n < 0x800 then [0xC0 + n / 64, 0x80 + n % 64]
  else if n < 0x10000 then
    [0xE0 + n / 4096, 0x80 + n / 64 % 64, 0x80 + n % 64]
  else
    [0xF0 + n / 262144, 0x80 + n / 4096 % 64, 0x80 + n / 64 % 64,
      0x80 + n % 64]

/-- `Buffer.from(text, 'utf8')`. -/
def utf8Encode : List Char → List Nat
  | [] => []
  | c :: rest => utf8EncodeChar c.toNat ++ utf8Encode rest

/-- A UTF-8 continuation byte `10xxxxxx`. -/
def isContByte (b : Nat) : Bool :=
  0x80 ≤ b && b < 0xC0

/-- Byte-at-a-time UTF-8 decoding automaton.  The first argument is the
number of continuation bytes still expected (0 at a character boundary),
the second the scalar value accumulated so far.  A lead byte `110xxxxx`,
`1110xxxx` or `11110xxx` opens a 2-, 3- or 4-byte sequence; each
continuation byte `10xxxxxx` shifts six more bits in; anything else is
malformed and yields `none`. -/
def utf8DecodeAux : Nat → Nat → List Nat → Option (List Char)
  | 0, _, [] => some []
  | _ + 1, _, [] => none
  | 0, _, b :: rest =>
    if b < 0x80 then (utf8DecodeAux 0 0 rest).map (Char.ofNat b :: ·)
    else if b < 0xC0 then none
    else if b < 0xE0 then utf8DecodeAux 1 (b - 0xC0) rest
    else if b < 0xF0 then utf8DecodeAux 2 (b - 0xE0) rest
    else if b < 0xF8 then utf8DecodeAux 3 (b - 0xF0) rest
    else none
  | 1, acc, b :: rest =>
    if isContByte b then
      (utf8DecodeAux 0 0 rest).map (Char.ofNat (acc * 64 + (b - 0x80)) :: ·)
    else none
  | k + 2, acc, b :: rest =>
    if isContByte b then utf8DecodeAux (k + 1) (acc * 64 + (b - 0x80)) rest
    else none

/-- UTF-8 decoding, `buffer.toString('utf8')`.  Returns `none` on a
malformed sequence; Node instead substitutes replacement characters
there, an output no claim depends on. -/
def utf8Decode (l : List Nat) : Option (List Char) :=
  utf8DecodeAux 0 0 l

/-- The standard base64 alphabet character for a 6-bit value. -/
def b64Char (n : Nat) : Char :=
  if n < 26 then Char.ofNat (65 + n)
  else if n < 52 then Char.ofNat (97 + (n - 26))
  else if n < 62 then Char.ofNat (48 + (n - 52))
  else if n = 62 then '+'
  else '/'

/-- Inverse alphabet lookup; `none` for characters outside the alphabet
(including the `=` padding). -/
def b64Value (c : Char) : Option Nat :=
  if 'A' ≤ c && c ≤ 'Z' then some (c.toNat - 65)
  else if 'a' ≤ c && c ≤ 'z' then some (c.toNat - 97 + 26)
  else if '0' ≤ c && c ≤ '9' then some (c.toNat - 48 + 52)
  else if c = '+' then some 62
  else if c = '/' then some 63
  else none

/-- `buffer.toString('base64')`: encode bytes in groups of three with
`=` padding. -/
def base64Encode : List Nat → List Char
  | [] => []
  | [b0] => [b64Char (b0 / 4), b64Char (b0 % 4 * 16), '=', '=']
  | [b0, b1] =>
    [b64Char (b0 / 4), b64Char (b0 % 4 * 16 + b1 / 16), b64Char (b1 % 16 * 4),
      '=']
  | b0 :: b1 :: b2 :: rest =>
    b64Char (b0 / 4) :: b64Char (b0 % 4 * 16 + b1 / 16) ::
      b64Char (b1 % 16 * 4 + b2 / 64) :: b64Char (b2 % 64) ::
      base64Encode rest

/-- Reassemble bytes from a stream of 6-bit values: four values give
three bytes, a trailing two or three values give one or two bytes. -/
def b64Groups : List Nat → List Nat
  | v0 :: v1 :: v2 :: v3 :: rest =>
    (v0 * 4 + v1 / 16) :: (v1 % 16 * 16 + v2 / 4) :: (v2 % 4 * 64 + v3) ::
      b64Groups rest
  | [v0, v1] => [v0 * 4 + v1 / 16]
  | [v0, v1, v2] => [v0 * 4 + v1 / 16, v1 % 16 * 16 + v2 / 4]
  | _ => []

/-- `Buffer.from(s, 'base64')`: Node's forgiving decoder — characters
outside the alphabet (in particular the `=` padding) are skipped, the
rest is decoded in groups.  It never throws. -/
def nodeBase64Decode (l : List Char) : List Nat :=
  b64Groups (l.filterMap b64Value)

/-- Case-insensitive hexadecimal digit value. -/
def hexVal (c : Char) : Option Nat :=
  if '0' ≤ c && c ≤ '9' then some (c.toNat - 48)
  else if 'A' ≤ c && c ≤ 'F' then some (c.toNat - 65 + 10)
  else if 'a' ≤ c && c ≤ 'f' then some (c.toNat - 97 + 10)
  else none

/-- The byte stream denoted by a percent-encoded string: `%hh` escapes
become single bytes, other characters contribute their UTF-8 bytes.
`none` when a `%` is not followed by two hex digits (JS `URIError`). -/
def percentDecodeBytes : List Char → Option (List Nat)
  | [] => some []
  | '%' :: c1 :: c2 :: rest =>
    match hexVal c1, hexVal c2 with
    | some h1, some h2 => (percentDecodeBytes rest).map ((h1 * 16 + h2) :: ·)
    | _, _ => none
  | '%' :: _ => none
  | c :: rest => (percentDecodeBytes rest).map (utf8EncodeChar c.toNat ++ ·)

/-- JS `decodeURIComponent`: percent-decode to bytes, then UTF-8 decode;
`none` models the `URIError` throw on malformed input. -/
def decodeURIComponentList (l : List Char) : Option (List Char) :=
  (percentDecodeBytes l).bind utf8Decode

/-! ## Attachment Decoder (`src/generator/index.js`, `parseDataUri`,
lines 19-33) -/

/-- Result of `parseDataUri`: `{ mime, buffer, text }` where `text` is
`buffer.toString('utf8')` (`none` abstracting Node's replacement-character
output on invalid UTF-8, which no claim depends on). -/
structure ParsedDataUri where
  mime : List Char
  buffer : List Nat
  text : Option (List Char)
deriving DecidableEq, Repr

/-- `parseDataUri` (`src/generator/index.js` lines 19-33) on the
character list of the payload: check the `data:` scheme, split at the
first comma, detect and strip the (case-insensitive) `;base64` marker,
and decode the data part; any decoding failure yields `none` instead of
throwing. -/
def parseDataUriList (dataUri : List Char) : Option ParsedDataUri :=
  if ¬ ("data:".toList.isPrefixOf dataUri) then none
  else
    match findSub dataUri [','] with
    | none => none
    | some firstComma =>
      let meta := (dataUri.drop 5).take (firstComma - 5)
      let data := dataUri.drop (firstComma + 1)
      let isBase64 := hasSubCI meta ";base64".toList
      let mime := removeFirstCI meta ";base64".toList
      if isBase64 then
        let buffer := nodeBase64Decode data
        some ⟨mime, buffer, utf8Decode buffer⟩
      else
        match decodeURIComponentList data with
        | none => none
        | some txt =>
          let buffer := utf8Encode txt
          some ⟨mime, buffer, utf8Decode buffer⟩

/-- `parseDataUri` on a `String` payload (a non-string or empty payload
fails the scheme check just as in the source). -/
def parseDataUri (dataUri : String) : Option ParsedDataUri :=
  parseDataUriList dataUri.toList

/-! ## The variable bag of `generateSite` (`src/generator/index.js`,
lines 89-113) -/

/-- An inbound attachment `{name, url}`; either field may be absent on
the untyped request object. -/
structure Attachment where
  name : Option String
  url : Option String
deriving DecidableEq, Repr

/-- The injectable variable bag `vars`.  `attachmentText` is doubly
optional: the outer layer records whether `ATTACHMENT_TEXT` was injected
at all, the inner layer is the modelled decode of the text. -/
structure InjectVars where
  attachmentsList : List (Option String × Option String)
  attachmentUrl : Option String
  attachmentText : Option (Option (List Char))
  pageTitle : Option (List Char)
deriving DecidableEq, Repr

/-- JS `String.prototype.trim` whitespace (the characters relevant to the
source's titles). -/
def jsWhitespace (c : Char) : Bool :=
  c = ' ' || c = '\t' || c = '\n' || c = '\r' || c = '\x0b' || c = '\x0c'

/-- JS `String.prototype.trim`. -/
def jsTrim (l : List Char) : List Char :=
  ((l.dropWhile jsWhitespace).reverse.dropWhile jsWhitespace).reverse

/-- `derivePageTitleFromBrief` (`src/generator/index.js` lines 83-87):
the first case-insensitive occurrence of `sales summary` extended to the
end of its line, trimmed; `none` when the brief is falsy or the phrase is
absent. -/
def derivePageTitleFromBrief (brief : Option String) : Option (List Char) :=
  match brief with
  | none => none
  | some b =>
    if b = "" then none
    else
      match findSubCI b.toList "sales summary".toList with
      | none => none
      | some i =>
        some (jsTrim ((b.toList.drop i).takeWhile
          (fun c => c ≠ '\n' && c ≠ '\r')))

/-- The variable bag `generateSite` computes (`src/generator/index.js`
lines 89-113): always the `{name, url}` list; then, depending on the
chosen template and the parse of the first attachment's url, possibly
`ATTACHMENT_URL`, `ATTACHMENT_TEXT` and `PAGE_TITLE` (the latter only
when truthy). -/
def siteVars (brief : Option String) (attachments : List Attachment) :
    InjectVars :=
  let tpl := chooseTemplate brief
  let base : InjectVars :=
    ⟨attachments.map (fun a => (a.name, a.url)), none, none, none⟩
  match attachments.head? with
  | none => base
  | some first =>
    match first.url with
    | none => base
    | some u =>
      match parseDataUri u with
      | none => base
      | some parsed =>
        let v1 :=
          if tpl = "captcha-solver" ∧ parsed.mime ≠ [] ∧
              ciStartsWith parsed.mime "image/".toList then
            { base with attachmentUrl := first.url }
          else base
        let v2 :=
          if tpl = "markdown-to-html" ∧
              ciEquals parsed.mime "text/markdown".toList then
            { v1 with attachmentText := some parsed.text }
          else v1
        if tpl = "sum-of-sales" ∧ ciEquals parsed.mime "text/csv".toList then
          { v2 with
            attachmentText := some parsed.text,
            pageTitle := (derivePageTitleFromBrief brief).bind
              (fun t => if t = [] then none else some t) }
        else v2

/-- Modelled from the spec (§8 attachment round-trip and the README's
attachment format `data:<mime>;base64,<...>`): a self-describing inline
payload built from a media type and a text, base64-encoding the text's
UTF-8 bytes. -/
def buildInlinePayload (mediaType text : List Char) : List Char :=
  "data:".toList ++ mediaType ++ ";base64,".toList ++
    base64Encode (utf8Encode text)

/-!
# Theorems

Shared helper lemmas first, then one theorem per claim (with witnesses
and counterexamples where required).
-/

/-- The scalar value of a `Char` is a valid Unicode scalar: below the
surrogate range or above it, and below 0x110000. -/
theorem char_toNat_valid (c : Char) :
    c.toNat < 1114112 ∧ (c.toNat < 55296 ∨ 57344 ≤ c.toNat) := by
  have h := c.valid
  unfold UInt32.isValidChar Nat.isValidChar at h
  have he : c.toNat = c.val.toNat := rfl
  rw [he]
  omega


/-- `findSub` finds a single character at the position after a prefix not
containing it. -/
theorem findSub_single (pre suf : List Char) (c : Char) (h : c ∉ pre) :
    findSub (pre ++ c :: suf) [c] = some pre.length := by
  induction pre with
  | nil => simp [findSub, List.isPrefixOf]
  | cons a rest ih =>
    have hne : ¬ (c == a) = true := by
      simp only [beq_iff_eq]
      intro hca
      exact h (by simp [hca])
    have hr := ih (fun hm => h (List.mem_cons_of_mem a hm))
    simp [findSub, List.isPrefixOf, hne, hr]

/-- A single character absent from the list is not found. -/
theorem findSub_single_none (l : List Char) (c : Char) (h : c ∉ l) :
    findSub l [c] = none := by
  induction l with
  | nil => simp [findSub]
  | cons a rest ih =>
    have hne : ¬ (c == a) = true := by
      simp only [beq_iff_eq]
      intro hca
      exact h (by simp [hca])
    have hr := ih (fun hm => h (List.mem_cons_of_mem a hm))
    simp [findSub, List.isPrefixOf, hne, hr]

/-- A pattern occurring as a suffix is found. -/
theorem findSub_append_self_isSome (xs pat : List Char) :
    (findSub (xs ++ pat) pat).isSome = true := by
  induction xs with
  | nil =>
    cases pat with
    | nil => simp [findSub]
    | cons c cs =>
      have : (c :: cs).isPrefixOf (([] : List Char) ++ c :: cs) = true := by
        simp [List.isPrefixOf_iff_prefix]
      simp [findSub, this]
  | cons a rest ih =>
    by_cases hp : pat.isPrefixOf (a :: (rest ++ pat)) = true
    · simp [findSub, hp]
    · simp [findSub, hp, ih]


/-- Every byte of a UTF-8 encoded scalar is below 256. -/
theorem utf8EncodeChar_lt (c : Char) : ∀ b ∈ utf8EncodeChar c.toNat, b < 256 := by
  have hv := char_toNat_valid c
  intro b hb
  unfold utf8EncodeChar at hb
  split at hb
  · simp at hb; omega
  · split at hb
    · simp at hb; rcases hb with h | h <;> omega
    · split at hb
      · simp at hb; rcases hb with h | h | h <;> omega
      · simp at hb; rcases hb with h | h | h | h <;> omega

/-- Every byte of a UTF-8 encoded string is below 256. -/
theorem utf8Encode_lt (cs : List Char) : ∀ b ∈ utf8Encode cs, b < 256 := by
  induction cs with
  | nil => simp [utf8Encode]
  | cons c rest ih =>
    intro b hb
    rw [utf8Encode] at hb
    rcases List.mem_append.mp hb with h | h
    · exact utf8EncodeChar_lt c b h
    · exact ih b h

/-- Decoding the UTF-8 encoding of one character peels it off. -/
theorem utf8Decode_encodeChar (c : Char) (rest : List Nat) :
    utf8DecodeAux 0 0 (utf8EncodeChar c.toNat ++ rest) =
      (utf8DecodeAux 0 0 rest).map (c :: ·) := by
  have hv := char_toNat_valid c
  have hofn : Char.ofNat c.toNat = c := Char.ofNat_toNat c
  set n := c.toNat with hn
  by_cases h1 : n < 128
  · simp [utf8EncodeChar, h1, utf8DecodeAux, hofn]
  · by_cases h2 : n < 2048
    · have e1 : ¬ (192 + n / 64 < 128) := by omega
      have e2 : ¬ (192 + n / 64 < 192) := by omega
      have e3 : 192 + n / 64 < 224 := by omega
      have e4 : isContByte (128 + n % 64) = true := by
        simp [isContByte]; omega
      simp [utf8EncodeChar, h1, h2, utf8DecodeAux, e1, e2, e3, e4]
      have hx : n / 64 * 64 + n % 64 = n := by omega
      rw [hx, hofn]
    · by_cases h3 : n < 65536
      · have e1 : ¬ (224 + n / 4096 < 128) := by omega
        have e2 : ¬ (224 + n / 4096 < 192) := by omega
        have e3 : ¬ (224 + n / 4096 < 224) := by omega
        have e4 : 224 + n / 4096 < 240 := by omega
        have e5 : isContByte (128 + n / 64 % 64) = true := by
          simp [isContByte]; omega
        have e6 : isContByte (128 + n % 64) = true := by
          simp [isContByte]; omega
        simp [utf8EncodeChar, h1, h2, h3, utf8DecodeAux, e1, e2, e3, e4, e5,
          e6]
        have hx : (n / 4096 * 64 + n / 64 % 64) * 64 + n % 64 = n := by omega
        rw [hx, hofn]
      · have h4 : n < 1114112 := hv.1
        have e1 : ¬ (240 + n / 262144 < 128) := by omega
        have e2 : ¬ (240 + n / 262144 < 192) := by omega
        have e3 : ¬ (240 + n / 262144 < 224) := by omega
        have e4 : ¬ (240 + n / 262144 < 240) := by omega
        have e5 : 240 + n / 262144 < 248 := by omega
        have e6 : isContByte (128 + n / 4096 % 64) = true := by
          simp [isContByte]; omega
        have e7 : isContByte (128 + n / 64 % 64) = true := by
          simp [isContByte]; omega
        have e8 : isContByte (128 + n % 64) = true := by
          simp [isContByte]; omega
        simp [utf8EncodeChar, h1, h2, h3, utf8DecodeAux, e1, e2, e3, e4, e5,
          e6, e7, e8]
        have hx : ((n / 262144 * 64 + n / 4096 % 64) * 64 + n / 64 % 64) * 64 +
            n % 64 = n := by omega
        rw [hx, hofn]

/-- UTF-8 round trip: decoding an encoded string gives it back. -/
theorem utf8Decode_utf8Encode (cs : List Char) :
    utf8Decode (utf8Encode cs) = some cs := by
  unfold utf8Decode
  induction cs with
  | nil => rfl
  | cons c rest ih =>
    rw [utf8Encode, utf8Decode_encodeChar, ih]
    rfl


/-- Alphabet inverse: the base64 character of a 6-bit value decodes back
to it. -/
theorem b64Value_b64Char : ∀ n, n < 64 → b64Value (b64Char n) = some n := by
  decide

/-- The padding character is outside the alphabet. -/
theorem b64Value_pad : b64Value (Char.ofNat 61) = none := by decide

/-- Base64 round trip through Node's forgiving decoder. -/
theorem nodeBase64Decode_base64Encode :
    ∀ (bytes : List Nat), (∀ b ∈ bytes, b < 256) →
      nodeBase64Decode (base64Encode bytes) = bytes
  | [], _ => rfl
  | [b0], h => by
    have hb0 : b0 < 256 := h b0 (by simp)
    have v0 := b64Value_b64Char (b0 / 4) (by omega)
    have v1 := b64Value_b64Char (b0 % 4 * 16) (by omega)
    unfold nodeBase64Decode
    simp only [base64Encode, List.filterMap_cons, List.filterMap_nil, v0, v1,
      b64Value_pad, b64Groups]
    have hx : b0 / 4 * 4 + b0 % 4 * 16 / 16 = b0 := by omega
    rw [hx]
  | [b0, b1], h => by
    have hb0 : b0 < 256 := h b0 (by simp)
    have hb1 : b1 < 256 := h b1 (by simp)
    have v0 := b64Value_b64Char (b0 / 4) (by omega)
    have v1 := b64Value_b64Char (b0 % 4 * 16 + b1 / 16) (by omega)
    have v2 := b64Value_b64Char (b1 % 16 * 4) (by omega)
    unfold nodeBase64Decode
    simp only [base64Encode, List.filterMap_cons, List.filterMap_nil, v0, v1,
      v2, b64Value_pad, b64Groups]
    have hx0 : b0 / 4 * 4 + (b0 % 4 * 16 + b1 / 16) / 16 = b0 := by omega
    have hx1 : (b0 % 4 * 16 + b1 / 16) % 16 * 16 + b1 % 16 * 4 / 4 = b1 := by
      omega
    rw [hx0, hx1]
  | b0 :: b1 :: b2 :: tail, h => by
    have hb0 : b0 < 256 := h b0 (by simp)
    have hb1 : b1 < 256 := h b1 (by simp)
    have hb2 : b2 < 256 := h b2 (by simp)
    have ih := nodeBase64Decode_base64Encode tail
      (fun b hb => h b (by simp at hb ⊢; tauto))
    have v0 := b64Value_b64Char (b0 / 4) (by omega)
    have v1 := b64Value_b64Char (b0 % 4 * 16 + b1 / 16) (by omega)
    have v2 := b64Value_b64Char (b1 % 16 * 4 + b2 / 64) (by omega)
    have v3 := b64Value_b64Char (b2 % 64) (by omega)
    unfold nodeBase64Decode at ih ⊢
    simp only [base64Encode, List.filterMap_cons, v0, v1, v2, v3, b64Groups]
    rw [ih]
    have hx0 : b0 / 4 * 4 + (b0 % 4 * 16 + b1 / 16) / 16 = b0 := by omega
    have hx1 : (b0 % 4 * 16 + b1 / 16) % 16 * 16 + (b1 % 16 * 4 + b2 / 64) / 4 = b1 := by
      omega
    have hx2 : (b1 % 16 * 4 + b2 / 64) % 4 * 64 + b2 % 64 = b2 := by omega
    rw [hx0, hx1, hx2]


/-- Parsing a payload built by `buildInlinePayload` from a comma-free
media type: the data is split at the comma this construction introduced,
the `;base64` marker is detected, and the decoded buffer and text are the
original bytes and text. -/
theorem parseDataUriList_build_parts (mt text : List Char) (hc : ',' ∉ mt) :
    parseDataUriList (buildInlinePayload mt text) =
      some ⟨removeFirstCI (mt ++ ";base64".toList) ";base64".toList,
            utf8Encode text, some text⟩ := by
  have hsemi : (";base64,".toList : List Char) = ";base64".toList ++ [','] := by
    decide
  have hshape : buildInlinePayload mt text =
      ("data:".toList ++ (mt ++ ";base64".toList)) ++
        ',' :: base64Encode (utf8Encode text) := by
    rw [buildInlinePayload, hsemi]
    simp
  have hcomma : ',' ∉ "data:".toList ++ (mt ++ ";base64".toList) := by
    intro hm
    rcases List.mem_append.mp hm with h | h
    · revert h; decide
    · rcases List.mem_append.mp h with h | h
      · exact hc h
      · revert h; decide
  have hfind : findSub (buildInlinePayload mt text) [','] =
      some ("data:".toList ++ (mt ++ ";base64".toList)).length := by
    rw [hshape]
    exact findSub_single _ _ ',' hcomma
  have hscheme : ("data:".toList.isPrefixOf (buildInlinePayload mt text)) = true := by
    rw [hshape, List.append_assoc]
    rw [List.isPrefixOf_iff_prefix]
    exact List.prefix_append _ _
  have hlen5 : ("data:".toList : List Char).length = 5 := by decide
  have hdrop5 : (buildInlinePayload mt text).drop 5 =
      (mt ++ ";base64".toList) ++ ',' :: base64Encode (utf8Encode text) := by
    rw [hshape, List.append_assoc, ← hlen5, List.drop_left]
  have hmetalen : ("data:".toList ++ (mt ++ ";base64".toList)).length - 5 =
      (mt ++ ";base64".toList).length := by
    simp
  have hmeta : ((buildInlinePayload mt text).drop 5).take
      (("data:".toList ++ (mt ++ ";base64".toList)).length - 5) =
      mt ++ ";base64".toList := by
    rw [hdrop5, hmetalen, List.take_left]
  have hdata : (buildInlinePayload mt text).drop
      (("data:".toList ++ (mt ++ ";base64".toList)).length + 1) =
      base64Encode (utf8Encode text) := by
    rw [hshape]
    have h1 : ("data:".toList ++ (mt ++ ";base64".toList)) ++
        ',' :: base64Encode (utf8Encode text) =
        (("data:".toList ++ (mt ++ ";base64".toList)) ++ [',']) ++
          base64Encode (utf8Encode text) := by simp
    have h2 : ("data:".toList ++ (mt ++ ";base64".toList)).length + 1 =
        (("data:".toList ++ (mt ++ ";base64".toList)) ++ [',']).length := by
      simp
    rw [h1, h2, List.drop_left]
  have hisb : hasSubCI (mt ++ ";base64".toList) ";base64".toList = true := by
    unfold hasSubCI findSubCI jsToLower
    rw [List.map_append]
    have hlow : (";base64".toList.map Char.toLower) = ";base64".toList := by
      decide
    rw [hlow]
    exact findSub_append_self_isSome _ _
  have hbuf : nodeBase64Decode (base64Encode (utf8Encode text)) =
      utf8Encode text :=
    nodeBase64Decode_base64Encode (utf8Encode text) (utf8Encode_lt text)
  have htext : utf8Decode (utf8Encode text) = some text :=
    utf8Decode_utf8Encode text
  rw [parseDataUriList]
  rw [hscheme]
  simp only [not_true_eq_false, if_false, hfind]
  simp only [hmeta, hdata, hisb, if_true, hbuf, htext]


/-- When every attempt in the window fails, the backoff loop runs the
whole delay list, produces the fail trace (a sleep after every attempt,
including the last) and returns a non-delivered result carrying the last
observed status and text. -/
theorem runBackoff_all_fail (responder : Nat → FetchOutcome) :
    ∀ (ds : List Nat) (i ls : Nat) (lt : String),
      (∀ k, failedOutcome (responder k)) →
      runBackoff responder ds i ls lt =
        (failTrace ds i,
          ⟨false, some (lastObserved responder ds i ls lt).1,
            some (if (lastObserved responder ds i ls lt).2 = "" then
              "callback failed" else (lastObserved responder ds i ls lt).2)⟩) := by
  intro ds
  induction ds with
  | nil => intro i ls lt _; rfl
  | cons d rest ih =>
    intro i ls lt hfail
    have hf := hfail i
    cases hri : responder i with
    | netError msg =>
      rw [runBackoff, lastObserved, hri]
      dsimp only
      rw [ih (i + 1) ls msg hfail]
      rfl
    | response s body =>
      rw [hri] at hf
      have hs : isOkStatus s = false := hf
      rw [runBackoff, lastObserved, hri]
      dsimp only
      simp only [hs, Bool.false_eq_true, if_false]
      rw [ih (i + 1) s body hfail]
      rfl

/-- The fail trace contains one attempt per delay. -/
theorem attemptCount_failTrace : ∀ (ds : List Nat) (i : Nat),
    attemptCount (failTrace ds i) = ds.length := by
  intro ds
  induction ds with
  | nil => intro i; rfl
  | cons d rest ih =>
    intro i
    simp [failTrace, attemptCount, NotifyEvent.isAttempt, List.filter] at ih ⊢
    exact ih (i + 1)

/-- The sleeps of the fail trace are exactly the delay list. -/
theorem sleepSecs_failTrace : ∀ (ds : List Nat) (i : Nat),
    sleepSecs (failTrace ds i) = ds := by
  intro ds
  induction ds with
  | nil => intro i; rfl
  | cons d rest ih =>
    intro i
    simp [failTrace, sleepSecs, List.filterMap] at ih ⊢
    exact ih (i + 1)


/-- C2: template selection is a pure function of the brief, evaluating the
catalogue rules (captcha-solver, markdown-to-html, sum-of-sales,
github-user-created) in fixed priority order with the first matching rule
winning and `fallback` when no rule matches; in particular
`select("machine-readable captcha ?url=x") = captcha-solver`,
`select("Render this MARKDOWN please") = markdown-to-html`, and an empty
or missing brief selects `fallback`. -/
theorem chooseTemplate_priority_order :
    (∀ brief, chooseTemplate brief =
      firstMatch catalogueRules (jsToLower (brief.getD "").toList)) ∧
    chooseTemplate (some "machine-readable captcha ?url=x") =
      "captcha-solver" ∧
    chooseTemplate (some "Render this MARKDOWN please") =
      "markdown-to-html" ∧
    chooseTemplate (some "") = "fallback" ∧
    chooseTemplate none = "fallback" :=
  ⟨fun _ => rfl, by decide, by decide, by decide, by decide⟩

/-- C5 counterexample: the derivation is not lossless — the two distinct
tasks `"a b"` and `"a?b"` are mapped to the same repository name
`llm-a-b`, by `deriveRepoName` and by the legacy `repoNameFor` alike. -/
theorem deriveRepoName_collision :
    ("a b" : String) ≠ "a?b" ∧
    deriveRepoName "a b" = deriveRepoName "a?b" ∧
    repoNameFor "a b" = repoNameFor "a?b" :=
  ⟨by decide, by decide, by decide⟩

/-- C5 (amended): the derived repository name is deterministic (equal
tasks give equal names), slugified with the `llm-` prefix and capped at
60 characters, but the mapping is not lossless: distinct tasks can
collide. -/
theorem deriveRepoName_deterministic_capped :
    (∀ t1 t2 : String, t1 = t2 → deriveRepoName t1 = deriveRepoName t2) ∧
    (∀ t : String, (deriveRepoName t).length ≤ 60) ∧
    (∀ t : String, "llm-".toList.isPrefixOf (deriveRepoName t) = true) ∧
    (∃ t1 t2 : String, t1 ≠ t2 ∧ deriveRepoName t1 = deriveRepoName t2) := by
  refine ⟨fun t1 t2 h => by rw [h], fun t => ?_, fun t => ?_, "a b", "a?b",
    by decide, by decide⟩
  · rw [deriveRepoName]
    simp [List.length_take]
  · rw [deriveRepoName]
    have h60 : (60 : Nat) = ("llm-".toList : List Char).length + 56 := by
      decide
    rw [h60, List.take_append]
    rw [List.isPrefixOf_iff_prefix]
    exact List.prefix_append _ _

/-- C5 witness: the amended theorem applied at a concrete task. -/
theorem deriveRepoName_deterministic_capped_witness :
    deriveRepoName "My Task" = deriveRepoName "My Task" ∧
    (deriveRepoName "My Task").length ≤ 60 :=
  ⟨deriveRepoName_deterministic_capped.1 "My Task" "My Task" rfl,
    deriveRepoName_deterministic_capped.2.1 "My Task"⟩

/-- C9 counterexample: at round 3 the engine's commit message is the
round-1 phrasing `feat: initial app`, not a `round 3 update` phrasing
(and the legacy variant still says `round2`), refuting the claim that
every round of at least 2 yields a `round N update` message. -/
theorem commitMessage_round3_collapse :
    commitMessage 3 = "feat: initial app" ∧
    commitMessage 3 ≠ "feat: round" ++ Nat.repr 3 ++ " update" ∧
    commitMessage 3 = commitMessage 1 ∧
    commitMessageLegacy 3 = "feat: round2 update" ∧
    commitMessageLegacy 3 ≠ "feat: round" ++ Nat.repr 3 ++ " update" :=
  ⟨by decide, by decide, by decide, by decide, by decide⟩

/-- C9 (amended): the commit message is `feat: round2 update` exactly at
round 2 and `feat: initial app` at every other round (including round 1);
the round number affects nothing else about the write plan: the paths and
contents written are identical across rounds, and every write of a round
carries that round's single message. -/
theorem commitMessage_only_message_differs :
    commitMessage 1 = "feat: initial app" ∧
    commitMessage 2 = "feat: round2 update" ∧
    (∀ r, r ≠ 2 → commitMessage r = "feat: initial app") ∧
    (∀ wf lic rd sf r r2,
      (ensureRepoWrites wf lic rd sf r).map (fun w => (w.path, w.content)) =
      (ensureRepoWrites wf lic rd sf r2).map (fun w => (w.path, w.content))) ∧
    (∀ wf lic rd sf r w, w ∈ ensureRepoWrites wf lic rd sf r →
      w.message = commitMessage r) := by
  refine ⟨rfl, rfl, fun r hr => ?_, fun wf lic rd sf r r2 => ?_,
    fun wf lic rd sf r w hw => ?_⟩
  · rw [commitMessage, if_neg hr]
  · simp [ensureRepoWrites]
  · simp [ensureRepoWrites] at hw
    rcases hw with h | h | h | h
    · rw [h]
    · rw [h]
    · rcases h with ⟨p, c, _, hpc⟩
      rw [← hpc]
    · rw [h]

/-- C9 witness: the amended theorem applied at round 3 and at a concrete
write plan. -/
theorem commitMessage_only_message_differs_witness :
    (3 : Nat) ≠ 2 ∧ commitMessage 3 = "feat: initial app" ∧
    (ensureRepoWrites "w" "l" "r" [] 1).map (fun w => (w.path, w.content)) =
      (ensureRepoWrites "w" "l" "r" [] 2).map (fun w => (w.path, w.content)) :=
  ⟨by decide, commitMessage_only_message_differs.2.2.1 3 (by decide),
    commitMessage_only_message_differs.2.2.2.1 "w" "l" "r" [] 1 2⟩

/-- C1 counterexample: the engine makes no second write attempt — with a
remote where the path is created concurrently between the engine's read
and its write, the single precondition-carrying write is rejected and
`putFile` surfaces the failure after exactly one attempt, refuting the
claim that a rejected write is retried once with a refreshed token. -/
theorem putFile_no_retry :
    ¬ (∀ (env : Nat → Option PathState) (content : String),
        createOrUpdateFileContents (env 1) content
          (getFileShaIfExists (env 0)) = .rejected →
        2 ≤ (putFile env content).2) := by
  intro h
  have h1 := h (fun k => if k = 0 then none else some ⟨"other", "sha-x"⟩)
    "desired" (by decide)
  have h2 : (putFile (fun k => if k = 0 then none else
      some ⟨"other", "sha-x"⟩) "desired").2 = 1 := by decide
  omega

/-- C1 (amended): every `putFile` supplies the previously read revision
token as the write precondition and makes exactly one write attempt;
when the path did not change between the read and the write the write is
accepted and the stored content equals the desired content; when the path
changed concurrently the write is rejected and the failure is surfaced
with no retry. -/
theorem putFile_single_attempt_semantics :
    (∀ (env : Nat → Option PathState) (content : String),
      (putFile env content).2 = 1) ∧
    (∀ (env : Nat → Option PathState) (content : String), env 1 = env 0 →
      putFile env content = (.ok ⟨content, blobSha content⟩, 1)) ∧
    (∀ (env : Nat → Option PathState) (content : String),
      createOrUpdateFileContents (env 1) content
        (getFileShaIfExists (env 0)) = .rejected →
      putFile env content = (.error "409 Conflict", 1)) := by
  refine ⟨fun env content => ?_, fun env content h => ?_,
    fun env content h => ?_⟩
  · rw [putFile]
    cases createOrUpdateFileContents (env 1) content
      (getFileShaIfExists (env 0)) <;> rfl
  · rw [putFile, h]
    cases henv : env 0 with
    | none => simp [createOrUpdateFileContents, getFileShaIfExists]
    | some st => simp [createOrUpdateFileContents, getFileShaIfExists]
  · rw [putFile, h]

/-- C1 witness: the amended theorem applied at a remote with no
concurrent interference: the write succeeds with the desired content. -/
theorem putFile_single_attempt_semantics_witness :
    putFile (fun _ => none) "hello" =
      (.ok ⟨"hello", blobSha "hello"⟩, 1) :=
  putFile_single_attempt_semantics.2.1 (fun _ => none) "hello" rfl


/-- One failed iteration of the backoff loop: an attempt, then its sleep,
then the loop continues with the accumulators updated as `lastObserved`
records them. -/
theorem runBackoff_fail_step (responder : Nat → FetchOutcome) (d : Nat)
    (rest : List Nat) (i ls : Nat) (lt : String)
    (hf : failedOutcome (responder i)) :
    runBackoff responder (d :: rest) i ls lt =
      (NotifyEvent.attempt i :: NotifyEvent.sleep d ::
        (runBackoff responder rest (i + 1)
          (lastObserved responder [d] i ls lt).1
          (lastObserved responder [d] i ls lt).2).1,
        (runBackoff responder rest (i + 1)
          (lastObserved responder [d] i ls lt).1
          (lastObserved responder [d] i ls lt).2).2) := by
  cases hri : responder i with
  | netError msg =>
    rw [runBackoff, lastObserved, hri]
    dsimp only
    rw [lastObserved]
  | response s body =>
    rw [hri] at hf
    have hs : isOkStatus s = false := hf
    rw [runBackoff, lastObserved, hri]
    dsimp only
    simp only [hs, Bool.false_eq_true, if_false]
    rw [lastObserved]

/-- A successful iteration of the backoff loop returns immediately with
only its own attempt in the trace and no sleep. -/
theorem runBackoff_success_step (responder : Nat → FetchOutcome) (d : Nat)
    (rest : List Nat) (i ls : Nat) (lt : String) (s : Nat) (body : String)
    (h : responder i = .response s body) (hs : isOkStatus s = true) :
    runBackoff responder (d :: rest) i ls lt =
      ([NotifyEvent.attempt i], ⟨true, none, none⟩) := by
  rw [runBackoff, h]
  dsimp only
  simp only [hs, if_true]

/-- C3 counterexample: for a target failing on every attempt, the loop
also sleeps 32 seconds after the sixth and final attempt — the last event
of the trace is a sleep, not an attempt — refuting the claim that the six
delays `1,2,4,8,16,32` occur only between attempts. -/
theorem postWithBackoff_sleep_after_last_attempt :
    ¬ (∀ responder : Nat → FetchOutcome,
        (∀ k, failedOutcome (responder k)) →
        attemptCount (postWithBackoff responder).1 = 6 ∧
        sleepSecs (postWithBackoff responder).1 = [1, 2, 4, 8, 16, 32] ∧
        (∀ e, (postWithBackoff responder).1.getLast? = some e →
          e.isAttempt = true)) := by
  intro h
  have h1 := (h (fun _ => .netError "connection refused")
      (fun _ => trivial)).2.2 (.sleep 32) (by decide)
  simp [NotifyEvent.isAttempt] at h1

/-- C3 (amended): a target failing on every attempt gets exactly 6
attempts with the delays `1,2,4,8,16,32` seconds each slept after its
failed attempt — the first five therefore between attempts and the final
32-second delay after the last attempt, before the non-delivered result
carrying the last observed status and error text is returned; a target
first succeeding on the 3rd attempt gets exactly 3 attempts, only the
delays `1,2` between them, and a delivered result. -/
theorem postWithBackoff_budget :
    (∀ responder : Nat → FetchOutcome, (∀ k, failedOutcome (responder k)) →
      attemptCount (postWithBackoff responder).1 = 6 ∧
      sleepSecs (postWithBackoff responder).1 = [1, 2, 4, 8, 16, 32] ∧
      (postWithBackoff responder).1 = failTrace [1, 2, 4, 8, 16, 32] 0 ∧
      (postWithBackoff responder).2 =
        ⟨false, some (lastObserved responder [1, 2, 4, 8, 16, 32] 0 0 "").1,
          some (if (lastObserved responder [1, 2, 4, 8, 16, 32] 0 0 "").2 = ""
            then "callback failed"
            else (lastObserved responder [1, 2, 4, 8, 16, 32] 0 0 "").2)⟩) ∧
    (∀ (responder : Nat → FetchOutcome) (s : Nat) (body : String),
      failedOutcome (responder 0) → failedOutcome (responder 1) →
      responder 2 = .response s body → isOkStatus s = true →
      (postWithBackoff responder).1 =
        [.attempt 0, .sleep 1, .attempt 1, .sleep 2, .attempt 2] ∧
      (postWithBackoff responder).2 = ⟨true, none, none⟩) := by
  constructor
  · intro responder hfail
    have hpb := runBackoff_all_fail responder [1, 2, 4, 8, 16, 32] 0 0 "" hfail
    rw [postWithBackoff, hpb]
    exact ⟨attemptCount_failTrace _ _, sleepSecs_failTrace _ _, rfl, rfl⟩
  · intro responder s body hf0 hf1 h2 hs
    rw [postWithBackoff,
      runBackoff_fail_step responder 1 [2, 4, 8, 16, 32] 0 0 "" hf0,
      runBackoff_fail_step responder 2 [4, 8, 16, 32] 1 _ _ hf1,
      runBackoff_success_step responder 4 [8, 16, 32] 2 _ _ s body h2 hs]
    exact ⟨rfl, rfl⟩

/-- C3 witness: the amended theorem applied to a target that always fails
and to one that first succeeds on the 3rd attempt. -/
theorem postWithBackoff_budget_witness :
    attemptCount (postWithBackoff (fun _ => .netError "boom")).1 = 6 ∧
    (postWithBackoff (fun i =>
      if i < 2 then .netError "down" else .response 200 "ok")).2 =
      ⟨true, none, none⟩ :=
  ⟨(postWithBackoff_budget.1 (fun _ => .netError "boom")
      (fun _ => trivial)).1,
    (postWithBackoff_budget.2
      (fun i => if i < 2 then .netError "down" else .response 200 "ok")
      200 "ok" (by decide) (by decide) (by decide) (by decide)).2⟩

/-- C4: when repository convergence succeeds but callback delivery fails
on every attempt of the full retry budget, the task handler still answers
200 with `ok: true` and the payload, surfacing the delivery failure only
as the advisory note. -/
theorem handleTask_advisory_on_delivery_failure :
    ∀ (info : RepoInfo) (responder : Nat → FetchOutcome),
      (∀ k, failedOutcome (responder k)) →
      handleTask true [] (.ok info) responder =
        ⟨200, true, some "evaluation_url not reachable after retries", true⟩ := by
  intro info responder hfail
  have hpb := runBackoff_all_fail responder [1, 2, 4, 8, 16, 32] 0 0 "" hfail
  rw [handleTask]
  simp [postWithRetry, postWithBackoff, hpb]

/-- C4 witness: the theorem applied to a concrete repository outcome and
an unreachable callback target. -/
theorem handleTask_advisory_on_delivery_failure_witness :
    handleTask true [] (.ok ⟨"llm-demo".toList, "sha", "url"⟩)
      (fun _ => .netError "ECONNREFUSED") =
      ⟨200, true, some "evaluation_url not reachable after retries", true⟩ :=
  handleTask_advisory_on_delivery_failure ⟨"llm-demo".toList, "sha", "url"⟩
    (fun _ => .netError "ECONNREFUSED") (fun _ => trivial)


/-- C6: for every input document and serialized variable bag, the output
of the injector is the document with the inline block chunk spliced in at
exactly the index the four-rule cascade (before the first script tag,
else before the closing head marker, else after the opening body tag,
else position 0) selects — so the content outside the inserted chunk is
byte-for-byte unchanged. -/
theorem injectVariablesIntoHtml_splice :
    ∀ (html serialized : List Char),
      injectVariablesIntoHtml html serialized =
        html.take (specInsertionIndex html) ++
          specInsertedChunk html serialized ++
          html.drop (specInsertionIndex html) ∧
      html.take (specInsertionIndex html) ++
        html.drop (specInsertionIndex html) = html := by
  intro html s
  refine ⟨?_, List.take_append_drop _ _⟩
  rw [injectVariablesIntoHtml, specInsertionIndex, specInsertedChunk]
  cases h1 : findSub html "<script".toList with
  | some idx => simp
  | none =>
    cases h2 : findSub html "</head>".toList with
    | some headIdx => simp
    | none =>
      cases h3 : findSub html "<body".toList with
      | some bodyIdx =>
        cases h4 : findSub (html.drop bodyIdx) ">".toList with
        | some j =>
          have h4x : findSub (List.drop bodyIdx html) ['>'] = some j := h4
          simp [h4x]
        | none =>
          have h4x : findSub (List.drop bodyIdx html) ['>'] = none := h4
          simp [h4x]
      | none => simp


/-- C7: decoding an inline payload built from a media type (comma-free,
as every RFC media-type token is) and any UTF-8 text, then reading back
`.text`, returns exactly the original text — and the decoded buffer is
exactly the text's UTF-8 bytes. -/
theorem parseDataUri_round_trip :
    ∀ (mediaType text : List Char), ',' ∉ mediaType →
      (parseDataUri (String.mk (buildInlinePayload mediaType text))).map
        (fun p => p.text) = some (some text) ∧
      (parseDataUri (String.mk (buildInlinePayload mediaType text))).map
        (fun p => p.buffer) = some (utf8Encode text) := by
  intro mt text hc
  have hlist : (String.mk (buildInlinePayload mt text)).toList =
      buildInlinePayload mt text := rfl
  rw [parseDataUri, hlist, parseDataUriList_build_parts mt text hc]
  exact ⟨rfl, rfl⟩

/-- C7 witness: the round trip at a concrete markdown attachment. -/
theorem parseDataUri_round_trip_witness :
    (',' ∉ "text/markdown".toList) ∧
    (parseDataUri (String.mk
      (buildInlinePayload "text/markdown".toList "# Hi there".toList))).map
      (fun p => p.text) = some (some "# Hi there".toList) :=
  ⟨by decide,
    (parseDataUri_round_trip "text/markdown".toList "# Hi there".toList
      (by decide)).1⟩


/-- C8: every payload that does not match the inline-payload shape — not
a string starting with the `data:` scheme, or with no comma separating
metadata from data — and every payload whose percent-decoding fails,
decodes to the absent result `none` (the decoder is a total function, so
it never throws), and the variable-bag computation then continues over
the request with the attachment contributing nothing beyond its raw
`{name, url}` entry. -/
theorem parseDataUri_fail_soft :
    (∀ s : String, ("data:".toList.isPrefixOf s.toList) = false →
      parseDataUri s = none) ∧
    (∀ s : String, ',' ∉ s.toList → parseDataUri s = none) ∧
    parseDataUri "" = none ∧
    parseDataUri "nota-data-uri" = none ∧
    parseDataUri "data:text/plain;no-comma" = none ∧
    parseDataUri "data:text/plain,%" = none ∧
    (∀ (brief name : Option String) (rest : List Attachment) (u : String),
      parseDataUri u = none →
      siteVars brief (⟨name, some u⟩ :: rest) =
        ⟨(⟨name, some u⟩ :: rest).map (fun a => (a.name, a.url)),
          none, none, none⟩) := by
  refine ⟨fun s h => ?_, fun s h => ?_, by decide, by decide, by decide,
    by decide, fun brief name rest u h => ?_⟩
  · rw [parseDataUri, parseDataUriList]
    have hcond : ¬ ("data:".toList.isPrefixOf s.toList) = true := by
      rw [h]
      simp
    rw [if_pos hcond]
  · rw [parseDataUri, parseDataUriList]
    by_cases hpre : ("data:".toList.isPrefixOf s.toList) = true
    · have hnone : findSub s.toList [','] = none := findSub_single_none _ _ h
      rw [if_neg (by rw [hpre]; simp), hnone]
    · rw [if_pos hpre]
  · rw [siteVars]
    simp [h]

/-- C8 witness: the theorem applied to concrete malformed payloads and a
request whose first attachment is malformed. -/
theorem parseDataUri_fail_soft_witness :
    parseDataUri "http://example.com/x.png" = none ∧
    parseDataUri "data-uri-without-comma" = none ∧
    siteVars (some "Render this MARKDOWN please")
      [⟨some "a.md", some "not-a-data-uri"⟩] =
      ⟨[(some "a.md", some "not-a-data-uri")], none, none, none⟩ :=
  ⟨parseDataUri_fail_soft.1 "http://example.com/x.png" (by decide),
    parseDataUri_fail_soft.2.1 "data-uri-without-comma" (by decide),
    parseDataUri_fail_soft.2.2.2.2.2.2 (some "Render this MARKDOWN please")
      (some "a.md") [] "not-a-data-uri"
      (parseDataUri_fail_soft.1 "not-a-data-uri" (by decide))⟩


/-- A string containing a semicolon can never pass a case-insensitive
exact match against a pattern without one. -/
theorem ciEquals_semicolon (a b pat : List Char) (hp : ';' ∉ pat) :
    ciEquals (a ++ ';' :: b) pat = false := by
  simp only [ciEquals]
  rw [decide_eq_false_iff_not]
  intro h
  have hsemi : Char.toLower ';' = ';' := by decide
  have hm : ';' ∈ jsToLower (a ++ ';' :: b) := by
    rw [jsToLower, List.map_append]
    exact List.mem_append.mpr (Or.inr (by rw [List.map_cons, hsemi]; simp))
  rw [h] at hm
  exact hp hm

/-- C10: a base64 inline payload whose media type carries parameters
(`mt;params`) decodes to a mime string that retains the parameters (only
the `;base64` marker is stripped), so the exact-match checks for
`text/markdown` and `text/csv` fail and no `ATTACHMENT_TEXT` (nor
`PAGE_TITLE`) variable is injected for any brief — while the
`image/*` prefix check of the captcha template still matches a
parameterized image media type and injects `ATTACHMENT_URL`. -/
theorem parseDataUri_parameterized_mime :
    ∀ (mt params text : List Char) (name brief : Option String),
      ',' ∉ mt ++ ';' :: params →
      findSubCI ((mt ++ ';' :: params) ++ ";base64".toList)
        ";base64".toList = some (mt ++ ';' :: params).length →
      ((parseDataUriList
          (buildInlinePayload (mt ++ ';' :: params) text)).map
        (fun p => p.mime) = some (mt ++ ';' :: params)) ∧
      ciEquals (mt ++ ';' :: params) "text/markdown".toList = false ∧
      ciEquals (mt ++ ';' :: params) "text/csv".toList = false ∧
      (siteVars brief [⟨name, some (String.mk
          (buildInlinePayload (mt ++ ';' :: params) text))⟩]).attachmentText
        = none ∧
      (siteVars brief [⟨name, some (String.mk
          (buildInlinePayload (mt ++ ';' :: params) text))⟩]).pageTitle
        = none ∧
      (chooseTemplate brief = "captcha-solver" →
        ciStartsWith (mt ++ ';' :: params) "image/".toList = true →
        (siteVars brief [⟨name, some (String.mk
            (buildInlinePayload (mt ++ ';' :: params) text))⟩]).attachmentUrl
          = some (String.mk
              (buildInlinePayload (mt ++ ';' :: params) text))) := by
  intro mt params text name brief hc hfind
  have hmime : removeFirstCI ((mt ++ ';' :: params) ++ ";base64".toList)
      ";base64".toList = mt ++ ';' :: params := by
    rw [removeFirstCI, hfind]
    have hlen : (mt ++ ';' :: params).length + (";base64".toList : List Char).length =
        ((mt ++ ';' :: params) ++ ";base64".toList).length := by
      simp
      omega
    dsimp only
    rw [List.take_left, hlen, List.drop_length, List.append_nil]
  have hparse : parseDataUriList
      (buildInlinePayload (mt ++ ';' :: params) text) =
      some ⟨mt ++ ';' :: params, utf8Encode text, some text⟩ := by
    rw [parseDataUriList_build_parts _ _ hc, hmime]
  have hparseStr : parseDataUri (String.mk
      (buildInlinePayload (mt ++ ';' :: params) text)) =
      some ⟨mt ++ ';' :: params, utf8Encode text, some text⟩ := hparse
  have hmd : ciEquals (mt ++ ';' :: params) "text/markdown".toList = false :=
    ciEquals_semicolon _ _ _ (by decide)
  have hcsv : ciEquals (mt ++ ';' :: params) "text/csv".toList = false :=
    ciEquals_semicolon _ _ _ (by decide)
  refine ⟨by rw [hparse]; rfl, hmd, hcsv, ?_, ?_, ?_⟩
  · rw [siteVars]
    simp only [List.head?_cons, hparseStr, hmd, hcsv, Bool.false_eq_true,
      and_false, if_false]
    split <;> rfl
  · rw [siteVars]
    simp only [List.head?_cons, hparseStr, hmd, hcsv, Bool.false_eq_true,
      and_false, if_false]
    split <;> rfl
  · intro htpl himg
    rw [siteVars]
    simp only [List.head?_cons, hparseStr]
    have hne : (mt ++ ';' :: params) ≠ [] := by simp
    simp only [hmd, hcsv, Bool.false_eq_true, and_false, if_false]
    rw [if_pos ⟨htpl, hne, himg⟩]


/-- C10 witness: the theorem applied to a parameterized image media type
on a captcha brief. -/
theorem parseDataUri_parameterized_mime_witness :
    ciEquals ("image/png".toList ++ ';' :: "charset=utf-8".toList)
      "text/markdown".toList = false ∧
    (siteVars (some "machine-readable captcha ?url=x")
      [⟨some "cap.png", some (String.mk (buildInlinePayload
        ("image/png".toList ++ ';' :: "charset=utf-8".toList)
        "x".toList))⟩]).attachmentUrl =
      some (String.mk (buildInlinePayload
        ("image/png".toList ++ ';' :: "charset=utf-8".toList) "x".toList)) :=
  ⟨(parseDataUri_parameterized_mime "image/png".toList "charset=utf-8".toList
      "x".toList (some "cap.png") (some "machine-readable captcha ?url=x")
      (by decide) (by decide)).2.1,
    (parseDataUri_parameterized_mime "image/png".toList "charset=utf-8".toList
      "x".toList (some "cap.png") (some "machine-readable captcha ?url=x")
      (by decide) (by decide)).2.2.2.2.2 (by decide) (by decide)⟩

end LlmDeployer
